import Mathlib

/-! zenroom-go-wrapper: the process invoker of `zenroom.go`

A shallow embedding of `ZenroomExec`, `ZencodeExec`, `wrapper` and
`captureOutput`.  The Go code is process orchestration, so the embedding passes
an explicit `World` through it: the filesystem, the behaviour of the file
operations (whether `os.CreateTemp` fails, the random suffixes it draws,
whether a `WriteString` is cut short, whether a `Sync` fails), the errors that
the `os/exec` calls may return, and the behaviour of the external executable
once it has been started.

Conventions of the embedding

* A Go `string` is a Lean `String`; the payloads are only copied, never
  inspected.
* A file has the content a reader sees and the content stable storage holds;
  a `Sync` that succeeds copies the first to the second.
* `os.CreateTemp` may fail.  The source discards that error, so the next
  `Name()` call on the nil handle panics; the deferred calls registered so far
  run and the panic leaves `wrapper`.
* `WriteString` may write only a leading part of its argument and `Sync` may
  fail; the source discards both results and goes on.
* `os.Remove` is taken to succeed (the source discards its error as well).
* `log.Fatalf` ends the host process with `os.Exit(1)`: deferred calls do not run.
* The child process is taken to terminate; it is given by the text it writes to
  each stream and its exit status, as a function of its argument vector and of
  the filesystem it is started in.  It talks to the caller through its two
  streams and its exit status only: it does not change the filesystem.
* The two `captureOutput` goroutines do not share state, so their results are
  computed one after the other, the lines they log in the order standard
  output, standard error.
-/

namespace Zenroom

/-- The constant `BUFSIZE` of the source (unused by the functions below). -/
def BUFSIZE : Nat := 2 * 1024 * 1024

/-- The struct `ZenResult`. -/
structure ZenResult where
  Output : String
  Logs : String
  deriving DecidableEq, Repr

/-! ## The world the code runs in -/

/-- One file: what a reader of the file sees, and what stable storage holds. -/
structure FileData where
  content : String
  onDisk : String
  deriving DecidableEq, Repr

/-- The filesystem: the file stored under each path, if any. -/
abbrev FS := String → Option FileData

/-- Store (or, with `none`, delete) the file under path `p`. -/
def FS.set (fs : FS) (p : String) (d : Option FileData) : FS :=
  fun q => if q = p then d else fs q

/-- One stream of the child: all the text the child writes to it, and the read
error (number of characters delivered before it, error text) that a reader of
the pipe meets, if any. -/
structure Pipe where
  data : String
  fault : Option (Nat × String)

/-- A child process that has been started and terminates. -/
structure Child where
  stdout : Pipe
  stderr : Pipe
  status : Nat

/-- Everything outside the Go code that an invocation depends on. -/
structure World where
  /-- the filesystem before the call -/
  fs : FS
  /-- the directory `os.TempDir()` -/
  tempDir : String
  /-- the error of `os.CreateTemp` for a pattern (the directory is missing or
  not writable, the disk is full), if any -/
  createTempErr : String → Option String
  /-- the random suffixes `os.CreateTemp` will draw, in order -/
  rand : List String
  /-- the number of characters that `WriteString` on the file of that name, with
  that argument, writes before it fails; `none` when it writes all of it -/
  writeShort : String → String → Option Nat
  /-- whether `Sync` on the file of that name fails -/
  syncFails : String → Bool
  /-- the error of `execCmd.StdoutPipe()`, if any -/
  stdoutPipeErr : Option String
  /-- the error of `execCmd.StderrPipe()`, if any -/
  stderrPipeErr : Option String
  /-- the error of `execCmd.Start()`, if any -/
  startErr : Option String
  /-- the external executable: argument vector and filesystem to behaviour -/
  child : List String → FS → Child

/-! ## Library calls -/

/-- The helper `joinPath` of package `os`: no separator is added after a
directory that ends in one. -/
def joinPath (dir name : String) : String :=
  if dir.data.getLast? = some '/' then dir ++ name else dir ++ "/" ++ name

/-- The loop of `os.CreateTemp`: draw random suffixes until the name `pre`
followed by the suffix does not exist (the `O_EXCL` open), and return that name
with the rest of the supply; `none` when the supply gives no such name. -/
def drawName (pre : String) (fs : FS) : List String → Option String × List String
  | [] => (none, [])
  | r :: rs =>
    if (fs (pre ++ r)).isSome then drawName pre fs rs
    else (some (pre ++ r), rs)

/-- `os.CreateTemp("", pattern)` for a pattern without `*`: the name of the new
file in `os.TempDir()` and the rest of the supply of suffixes; `none` is the
error return. -/
def createTemp (w : World) (pattern : String) (fs : FS) (rand : List String) :
    Option String × List String :=
  match w.createTempErr pattern with
  | some _ => (none, rand)
  | none => drawName (joinPath w.tempDir pattern) fs rand

/-- The part of `s` that `f.WriteString(s)` on the file named `name` writes. -/
def written (w : World) (name s : String) : String :=
  match w.writeShort name s with
  | none => s
  | some n => s.take n

/-- `f.WriteString(s)` on the file named `name`: append what is written at the
file offset. -/
def writeString (w : World) (fs : FS) (name s : String) : FS :=
  match fs name with
  | some d => fs.set name (some { d with content := d.content ++ written w name s })
  | none => fs

/-- `f.Sync()` on the file named `name`: commit the content to stable storage,
unless the call fails. -/
def sync (w : World) (fs : FS) (name : String) : FS :=
  if w.syncFails name then fs
  else
    match fs name with
    | some d => fs.set name (some { d with onDisk := d.content })
    | none => fs

/-- `os.Remove(name)`; removing a missing file is an error that the source discards. -/
def osRemove (fs : FS) (name : String) : FS :=
  fs.set name none

/-- The struct `exec.Cmd`, as far as `wrapper` depends on it: the argument
vector.  The path of the executable, which `exec.Command` looks up through
`PATH`, is left to the world: a failed lookup is an error of `Start`. -/
structure Cmd where
  Args : List String
  deriving DecidableEq, Repr

/-- `exec.Command(name, arg...)`. -/
def Command (name : String) (arg : List String) : Cmd :=
  { Args := name :: arg }

/-- `io.Copy(buf, pipe)`: the text accumulated in `buf` and the error. -/
def ioCopy (pipe : Pipe) : String × Option String :=
  match pipe.fault with
  | none => (pipe.data, none)
  | some (n, e) => (pipe.data.take n, some e)

/-- `execCmd.Wait()`: an error exactly when the exit status is not zero. -/
def Wait (c : Child) : Option String :=
  if c.status = 0 then none else some ("exit status " ++ toString c.status)

/-- Receiving from a channel of strings that carries the one message `m`, or is
closed without a message (the receive then yields the zero value). -/
def recv (m : Option String) : String :=
  match m with
  | some s => s
  | none => ""

/-! ## The source functions -/

/-- The function `captureOutput`: the message sent on `output` before it is
closed (`none` when it is closed without a send), and the lines logged. -/
def captureOutput (pipe : Pipe) : Option String × List String :=
  match ioCopy pipe with
  | (_, some e) => (none, ["Failed to capture output: " ++ e])
  | (buf, none) => (some buf, [])

/-- A deferred call, its arguments evaluated when it was deferred. -/
inductive Deferred where
  /-- the call `f.Close()`, for the handle of that name (`none`: the nil handle) -/
  | close (name : Option String)
  /-- the call `os.Remove(name)` -/
  | remove (name : String)
  deriving DecidableEq, Repr

/-- Run the deferred calls, the most recently deferred (the head) first. -/
def runDeferred : List Deferred → FS → FS
  | [], fs => fs
  | Deferred.close _ :: ds, fs => runDeferred ds fs
  | Deferred.remove name :: ds, fs => runDeferred ds (osRemove fs name)

/-- How an invocation ends. -/
inductive Exit where
  /-- the call returns this pair to its caller -/
  | returned (res : ZenResult) (ok : Bool)
  /-- a call of `log.Fatalf`: the host process exits, nothing is returned -/
  | fatal
  /-- a run-time panic leaves the function, nothing is returned -/
  | panicked
  deriving DecidableEq, Repr

/-- The child process that was started: its argument vector and the filesystem
at the moment of `execCmd.Start()`. -/
structure Spawn where
  argv : List String
  fs : FS

/-- The local variables of `wrapper` together with the state of the world. -/
structure Frame where
  cmd : List String
  fs : FS
  rand : List String
  /-- the deferred calls, the most recent first -/
  deferred : List Deferred
  /-- the temporary files created so far: pattern and name, the most recent last -/
  created : List (String × String)

/-- What an invocation did. -/
structure Run where
  exit : Exit
  /-- the filesystem when the body of `wrapper` was left (by its return
  statement, by `log.Fatalf` or by a panic), before any deferred call -/
  fsBody : FS
  /-- the filesystem when the invocation has ended -/
  fs : FS
  /-- the temporary files the invocation created: pattern and name, in order -/
  created : List (String × String)
  /-- the child process, if one was started -/
  spawn : Option Spawn
  /-- the lines written with the `log` package -/
  hostLog : List String

/-- One of the three blocks of `wrapper` that put a payload in a temporary file
(lines 43-48, 52-57 and 60-65; they differ in the pattern, the payload and the
flag appended before the name).  `Except.error` is the panic of `Name()` on the
nil handle after `os.CreateTemp` failed. -/
def stage (w : World) (pattern payload : String) (flag : List String) (s : Frame) :
    Except Frame Frame :=
  match createTemp w pattern s.fs s.rand with
  | (none, rest) =>
    Except.error { s with rand := rest, deferred := Deferred.close none :: s.deferred }
  | (some name, rest) =>
    let fs0 := s.fs.set name (some { content := "", onDisk := "" })
    let ds := Deferred.remove name :: Deferred.close (some name) :: s.deferred
    let fs1 := writeString w fs0 name payload
    let fs2 := sync w fs1 name
    Except.ok { cmd := s.cmd ++ flag ++ [name], fs := fs2, rand := rest, deferred := ds,
                created := s.created ++ [(pattern, name)] }

/-- Lines 42-65 of `wrapper`: the keys, data and script blocks. -/
def prepare (cmd : List String) (script keys data : String) (w : World) : Except Frame Frame :=
  let s0 : Frame := { cmd := cmd, fs := w.fs, rand := w.rand, deferred := [], created := [] }
  match (if keys ≠ "" then stage w "tempKeys" keys ["-k"] s0 else Except.ok s0) with
  | Except.error s => Except.error s
  | Except.ok s1 =>
    match (if data ≠ "" then stage w "tempData" data ["-a"] s1 else Except.ok s1) with
    | Except.error s => Except.error s
    | Except.ok s2 => stage w "tempScript" script [] s2

/-- A panic leaves `wrapper` in frame `s`: the deferred calls run. -/
def unwind (s : Frame) : Run :=
  { exit := Exit.panicked, fsBody := s.fs, fs := runDeferred s.deferred s.fs,
    created := s.created, spawn := none, hostLog := [] }

/-- A call of `log.Fatalf` in frame `s`: the line is logged and the process
exits; the deferred calls do not run. -/
def fatalf (s : Frame) (line : String) : Run :=
  { exit := Exit.fatal, fsBody := s.fs, fs := s.fs, created := s.created, spawn := none,
    hostLog := [line] }

/-- Lines 67-94 of `wrapper`: build the command, open the pipes, start the
child, drain both streams, wait, return (the deferred calls run). -/
def launch (w : World) (s : Frame) : Run :=
  match s.cmd with
  | [] => unwind s
  | name :: args =>
    let execCmd := Command name args
    match w.stdoutPipeErr with
    | some e => fatalf s ("Failed to create stdout pipe: " ++ e)
    | none =>
      match w.stderrPipeErr with
      | some e => fatalf s ("Failed to create stderr pipe: " ++ e)
      | none =>
        match w.startErr with
        | some e => fatalf s ("Failed to start command: " ++ e)
        | none =>
          let proc := w.child execCmd.Args s.fs
          let stdoutOutput := captureOutput proc.stdout
          let stderrOutput := captureOutput proc.stderr
          let stdoutStr := recv stdoutOutput.1
          let stderrStr := recv stderrOutput.1
          let err := Wait proc
          { exit := Exit.returned { Output := stdoutStr, Logs := stderrStr } err.isNone,
            fsBody := s.fs,
            fs := runDeferred s.deferred s.fs,
            created := s.created,
            spawn := some { argv := execCmd.Args, fs := s.fs },
            hostLog := stdoutOutput.2 ++ stderrOutput.2 }

/-- The function `wrapper`. -/
def wrapper (cmd : List String) (script conf keys data : String) (w : World) : Run :=
  match prepare cmd script keys data w with
  | Except.error s => unwind s
  | Except.ok s => launch w s

/-- The function `ZenroomExec`. -/
def ZenroomExec (script conf keys data : String) (w : World) : Run :=
  wrapper ["zenroom"] script conf keys data w

/-- The function `ZencodeExec`. -/
def ZencodeExec (script conf keys data : String) (w : World) : Run :=
  wrapper ["zenroom", "-z"] script conf keys data w

/-! ## Vocabulary of the statements -/

/-- The invocation through either entry point: `ZencodeExec` (contract mode)
when `contract` is set, `ZenroomExec` otherwise. -/
def invoke (contract : Bool) (script conf keys data : String) (w : World) : Run :=
  if contract then ZencodeExec script conf keys data w else ZenroomExec script conf keys data w

/-- The argument vector in the words of the specification. -/
def specArgv (contract : Bool) (keys data keysPath dataPath scriptPath : String) : List String :=
  ["zenroom"] ++ (if contract then ["-z"] else []) ++
    (if keys ≠ "" then ["-k", keysPath] else []) ++
    (if data ≠ "" then ["-a", dataPath] else []) ++ [scriptPath]

/-- The temporary files in the words of the specification: a keys file only for
non-empty keys, a data file only for non-empty data, and the script file. -/
def specCreated (keys data keysPath dataPath scriptPath : String) : List (String × String) :=
  (if keys ≠ "" then [("tempKeys", keysPath)] else []) ++
    (if data ≠ "" then [("tempData", dataPath)] else []) ++ [("tempScript", scriptPath)]

/-- The frame `s` is tidy with respect to the filesystem `fs0` the call started
in: files other than the temporary files are as in `fs0`, every temporary file
is new and present, the calls `os.Remove` deferred are those of the temporary
files, and no name was handed out twice. -/
def Tidy (fs0 : FS) (s : Frame) : Prop :=
  (∀ p, p ∉ s.created.map Prod.snd → s.fs p = fs0 p) ∧
  (∀ p, p ∈ s.created.map Prod.snd → fs0 p = none ∧ s.fs p ≠ none) ∧
  (∀ p, Deferred.remove p ∈ s.deferred ↔ p ∈ s.created.map Prod.snd) ∧
  (s.created.map Prod.snd).Nodup

/-- What a block of `wrapper` leaves in its temporary file `name`: the part of
the payload that `WriteString` wrote, committed to stable storage unless `Sync`
failed. -/
def stored (w : World) (name payload : String) : FileData :=
  { content := written w name payload,
    onDisk := if w.syncFails name then "" else written w name payload }

/-! ## Sample worlds -/

/-- A stub executable: it echoes its argument vector on standard output and the
content of the file named by its last argument on standard error, and exits
with status zero. -/
def echoChild (argv : List String) (fs : FS) : Child :=
  { stdout := { data := String.intercalate " " argv, fault := none },
    stderr :=
      { data :=
          match argv.getLast? with
          | some p => (match fs p with | some d => d.content | none => "")
          | none => "",
        fault := none },
    status := 0 }

/-- A world in which nothing fails: no files, three random suffixes, the stub
executable. -/
def calmWorld : World :=
  { fs := fun _ => none, tempDir := "/tmp", createTempErr := fun _ => none,
    rand := ["1", "2", "3"], writeShort := fun _ _ => none, syncFails := fun _ => false,
    stdoutPipeErr := none, stderrPipeErr := none, startErr := none, child := echoChild }

/-- A world whose executable reports a script error and exits with status 1. -/
def rejectWorld : World :=
  { calmWorld with
    child := fun _ _ =>
      { stdout := { data := "", fault := none },
        stderr := { data := "[!] undefined symbol", fault := none },
        status := 1 } }

/-- A world in which the executable cannot be started. -/
def startFailsWorld : World :=
  { calmWorld with startErr := some "exec: zenroom: executable file not found" }

/-- A world in which the standard-output pipe cannot be created. -/
def pipeFailsWorld : World :=
  { calmWorld with stdoutPipeErr := some "pipe: too many open files" }

/-- A world in which reading the child's standard output fails after one
character of `abc`, while standard error delivers `warn` in full. -/
def readFaultWorld : World :=
  { calmWorld with
    child := fun _ _ =>
      { stdout := { data := "abc", fault := some (1, "read |0: input/output error") },
        stderr := { data := "warn", fault := none },
        status := 0 } }

/-- The world of `rejectWorld` with two files in place before the call, one of
them under the first name `os.CreateTemp` tries for the keys file. -/
def busyWorld : World :=
  { rejectWorld with
    fs := (rejectWorld.fs.set "/etc/hosts" (some { content := "h", onDisk := "h" })).set
      "/tmp/tempKeys1" (some { content := "old", onDisk := "old" }),
    rand := ["1", "2", "3", "4"] }

/-- A world in which the disk fills up: every `WriteString` stops after three
characters. -/
def shortWriteWorld : World :=
  { calmWorld with writeShort := fun _ _ => some 3 }

/-- A world in which no temporary file can be created. -/
def noTempWorld : World :=
  { calmWorld with createTempErr := fun _ => some "permission denied" }

/-! ## Lemmas on the library calls and the blocks of `wrapper` -/

theorem drawName_fresh (pre : String) (fs : FS) (rs : List String) (name : String)
    (rest : List String) (h : drawName pre fs rs = (some name, rest)) :
    fs name = none ∧ ∃ r, name = pre ++ r := by
  induction rs with
  | nil => simp [drawName] at h
  | cons r rs ih =>
    unfold drawName at h
    split at h
    · exact ih h
    · rename_i hn
      simp only [Prod.mk.injEq, Option.some.injEq] at h
      rw [← h.1]
      exact ⟨by simpa using hn, r, rfl⟩

/-- A name that `os.CreateTemp` returns is unused and is the pattern, in the
temporary directory, followed by a suffix. -/
theorem createTemp_fresh (w : World) (pattern : String) (fs : FS) (rs : List String)
    (name : String) (rest : List String)
    (h : createTemp w pattern fs rs = (some name, rest)) :
    fs name = none ∧ ∃ r, name = joinPath w.tempDir pattern ++ r := by
  unfold createTemp at h
  split at h
  · simp at h
  · exact drawName_fresh _ _ _ _ _ h

theorem runDeferred_apply (ds : List Deferred) (fs : FS) (p : String) :
    runDeferred ds fs p = if Deferred.remove p ∈ ds then none else fs p := by
  induction ds generalizing fs with
  | nil => simp [runDeferred]
  | cons d ds ih =>
    cases d with
    | close n => simp [runDeferred, ih]
    | remove n =>
      simp only [runDeferred, ih, osRemove, FS.set, List.mem_cons, Deferred.remove.injEq]
      by_cases h1 : p = n <;> by_cases h2 : Deferred.remove p ∈ ds <;> simp [h1, h2]

/-- What a block that succeeds does to the frame. -/
theorem stage_ok (w : World) (pattern payload : String) (flag : List String) (s t : Frame)
    (h : stage w pattern payload flag s = Except.ok t) :
    ∃ name, s.fs name = none ∧
      (∃ r, name = joinPath w.tempDir pattern ++ r) ∧
      t.cmd = s.cmd ++ flag ++ [name] ∧
      t.created = s.created ++ [(pattern, name)] ∧
      t.deferred = Deferred.remove name :: Deferred.close (some name) :: s.deferred ∧
      t.fs name = some (stored w name payload) ∧
      ∀ q, q ≠ name → t.fs q = s.fs q := by
  unfold stage at h
  split at h
  · exact absurd h (by simp)
  · rename_i name rest hc
    obtain ⟨hfresh, hform⟩ := createTemp_fresh _ _ _ _ _ _ hc
    refine ⟨name, hfresh, hform, ?_⟩
    simp only [Except.ok.injEq] at h
    subst h
    refine ⟨rfl, rfl, rfl, ?_, ?_⟩
    · by_cases hs : w.syncFails name = true
      · simp [sync, writeString, FS.set, stored, hs]
      · simp [sync, writeString, FS.set, stored, hs]
    · intro q hq
      by_cases hs : w.syncFails name = true
      · simp [sync, writeString, FS.set, hs, hq]
      · simp [sync, writeString, FS.set, hs, hq]

/-- What a block whose `os.CreateTemp` fails does to the frame. -/
theorem stage_error (w : World) (pattern payload : String) (flag : List String) (s t : Frame)
    (h : stage w pattern payload flag s = Except.error t) :
    t.cmd = s.cmd ∧ t.created = s.created ∧ t.fs = s.fs ∧
      t.deferred = Deferred.close none :: s.deferred := by
  unfold stage at h
  split at h
  · simp only [Except.error.injEq] at h
    subst h
    exact ⟨rfl, rfl, rfl, rfl⟩
  · exact absurd h (by simp)

theorem stage_ok_tidy (fs0 : FS) (w : World) (pattern payload : String) (flag : List String)
    (s t : Frame) (hs : Tidy fs0 s) (h : stage w pattern payload flag s = Except.ok t) :
    Tidy fs0 t := by
  obtain ⟨name, hfresh, -, -, hcr, hdf, hname, hother⟩ := stage_ok _ _ _ _ _ _ h
  obtain ⟨h1, h2, h3, h4⟩ := hs
  have hnot : name ∉ s.created.map Prod.snd := fun hm => (h2 name hm).2 hfresh
  have hmap : t.created.map Prod.snd = s.created.map Prod.snd ++ [name] := by simp [hcr]
  refine ⟨?_, ?_, ?_, ?_⟩
  · intro p hp
    rw [hmap, List.mem_append, not_or] at hp
    have hpn : p ≠ name := by simpa using hp.2
    rw [hother p hpn]
    exact h1 p hp.1
  · intro p hp
    rw [hmap, List.mem_append] at hp
    rcases hp with hp | hp
    · have hpn : p ≠ name := fun e => hnot (e ▸ hp)
      rw [hother p hpn]
      exact h2 p hp
    · have hpn : p = name := by simpa using hp
      subst hpn
      refine ⟨?_, by simp [hname]⟩
      rw [← h1 p hnot]
      exact hfresh
  · intro p
    rw [hmap, hdf]
    simp only [List.mem_cons, Deferred.remove.injEq, List.mem_append, List.mem_singleton,
      List.not_mem_nil, or_false, reduceCtorEq, false_or]
    rw [h3 p]
    exact or_comm
  · rw [hmap]
    exact List.Nodup.append h4 (List.nodup_singleton name) (by simpa using hnot)

theorem stage_error_tidy (fs0 : FS) (w : World) (pattern payload : String) (flag : List String)
    (s t : Frame) (hs : Tidy fs0 s) (h : stage w pattern payload flag s = Except.error t) :
    Tidy fs0 t := by
  obtain ⟨-, hcr, hfs, hdf⟩ := stage_error _ _ _ _ _ _ h
  obtain ⟨h1, h2, h3, h4⟩ := hs
  refine ⟨?_, ?_, ?_, ?_⟩
  · intro p hp
    rw [hfs]
    rw [hcr] at hp
    exact h1 p hp
  · intro p hp
    rw [hfs]
    rw [hcr] at hp
    exact h2 p hp
  · intro p
    rw [hcr, hdf]
    simp only [List.mem_cons, reduceCtorEq, false_or]
    exact h3 p
  · rw [hcr]
    exact h4

theorem tidy_start (cmd : List String) (w : World) :
    Tidy w.fs { cmd := cmd, fs := w.fs, rand := w.rand, deferred := [], created := [] } := by
  refine ⟨fun _ _ => rfl, ?_, ?_, ?_⟩ <;> simp

/-- After the deferred calls of a tidy frame the filesystem is the initial one. -/
theorem tidy_runDeferred (fs0 : FS) (s : Frame) (hs : Tidy fs0 s) (p : String) :
    runDeferred s.deferred s.fs p = fs0 p := by
  obtain ⟨h1, h2, h3, -⟩ := hs
  rw [runDeferred_apply]
  by_cases hp : p ∈ s.created.map Prod.snd
  · rw [if_pos ((h3 p).2 hp)]
    exact (h2 p hp).1.symm
  · rw [if_neg (fun hm => hp ((h3 p).1 hm))]
    exact h1 p hp

/-- In a tidy frame the temporary files recorded are exactly the files that
the filesystem holds and the initial filesystem did not. -/
theorem tidy_new_files (fs0 : FS) (s : Frame) (hs : Tidy fs0 s) (p : String) :
    p ∈ s.created.map Prod.snd ↔ (fs0 p = none ∧ s.fs p ≠ none) := by
  obtain ⟨h1, h2, -, -⟩ := hs
  constructor
  · exact h2 p
  · intro hp
    by_contra hn
    exact hp.2 (by rw [h1 p hn]; exact hp.1)

/-- A block that is run only under a condition keeps the frame tidy. -/
theorem guarded_stage_tidy (fs0 : FS) (c : Prop) [Decidable c] (w : World)
    (pattern payload : String) (flag : List String) (s : Frame) (hs : Tidy fs0 s) :
    (∀ t, (if c then stage w pattern payload flag s else Except.ok s) = Except.ok t →
      Tidy fs0 t) ∧
    (∀ t, (if c then stage w pattern payload flag s else Except.ok s) = Except.error t →
      Tidy fs0 t) := by
  by_cases hc : c
  · simp only [hc, if_true]
    exact ⟨fun t h => stage_ok_tidy _ _ _ _ _ _ _ hs h,
      fun t h => stage_error_tidy _ _ _ _ _ _ _ hs h⟩
  · simp only [hc, if_false]
    refine ⟨fun t h => ?_, fun t h => absurd h (by simp)⟩
    simp only [Except.ok.injEq] at h
    exact h ▸ hs

/-- The three blocks of `prepare`, one result after the other. -/
theorem prepare_eq (cmd : List String) (script keys data : String) (w : World) :
    prepare cmd script keys data w =
      match (if keys ≠ "" then stage w "tempKeys" keys ["-k"]
          { cmd := cmd, fs := w.fs, rand := w.rand, deferred := [], created := [] }
        else Except.ok
          { cmd := cmd, fs := w.fs, rand := w.rand, deferred := [], created := [] }) with
      | Except.error s => Except.error s
      | Except.ok s1 =>
        match (if data ≠ "" then stage w "tempData" data ["-a"] s1
          else Except.ok s1) with
        | Except.error s => Except.error s
        | Except.ok s2 => stage w "tempScript" script [] s2 := rfl

/-- Both results of `prepare` are tidy frames. -/
theorem prepare_tidy (cmd : List String) (script keys data : String) (w : World) :
    (∀ s, prepare cmd script keys data w = Except.ok s → Tidy w.fs s) ∧
    (∀ s, prepare cmd script keys data w = Except.error s → Tidy w.fs s) := by
  have h0 := tidy_start cmd w
  rw [prepare_eq]
  generalize e1 : (if keys ≠ "" then stage w "tempKeys" keys ["-k"]
      { cmd := cmd, fs := w.fs, rand := w.rand, deferred := [], created := [] }
    else Except.ok
      { cmd := cmd, fs := w.fs, rand := w.rand, deferred := [], created := [] }) = r1
  cases r1 with
  | error s1 =>
    have t1 := (guarded_stage_tidy w.fs _ _ _ _ _ _ h0).2 s1 e1
    refine ⟨fun s h => absurd h (by simp), fun s h => ?_⟩
    simp only [Except.error.injEq] at h
    exact h ▸ t1
  | ok s1 =>
    have t1 := (guarded_stage_tidy w.fs _ _ _ _ _ _ h0).1 s1 e1
    simp only
    generalize e2 : (if data ≠ "" then stage w "tempData" data ["-a"] s1
      else Except.ok s1) = r2
    cases r2 with
    | error s2 =>
      have t2 := (guarded_stage_tidy w.fs _ _ _ _ _ _ t1).2 s2 e2
      refine ⟨fun s h => absurd h (by simp), fun s h => ?_⟩
      simp only [Except.error.injEq] at h
      exact h ▸ t2
    | ok s2 =>
      have t2 := (guarded_stage_tidy w.fs _ _ _ _ _ _ t1).1 s2 e2
      exact ⟨fun s h => stage_ok_tidy _ _ _ _ _ _ _ t2 h,
        fun s h => stage_error_tidy _ _ _ _ _ _ _ t2 h⟩

/-- The temporary files of a frame after one block: those before, and one of
this pattern at most, named after the pattern. -/
theorem stage_created (w : World) (pattern payload : String) (flag : List String) (s t : Frame)
    (h : stage w pattern payload flag s = Except.ok t ∨
      stage w pattern payload flag s = Except.error t) :
    ∀ x, x ∈ t.created →
      x ∈ s.created ∨ (x.1 = pattern ∧ ∃ r, x.2 = joinPath w.tempDir x.1 ++ r) := by
  intro x hx
  rcases h with h | h
  · obtain ⟨name, -, hform, -, hcr, -⟩ := stage_ok _ _ _ _ _ _ h
    rw [hcr, List.mem_append, List.mem_singleton] at hx
    rcases hx with hx | hx
    · exact Or.inl hx
    · subst hx
      exact Or.inr ⟨rfl, hform⟩
  · rw [(stage_error _ _ _ _ _ _ h).2.1] at hx
    exact Or.inl hx

theorem guarded_stage_created (c : Prop) [Decidable c] (w : World) (pattern payload : String)
    (flag : List String) (s t : Frame)
    (h : (if c then stage w pattern payload flag s else Except.ok s) = Except.ok t ∨
      (if c then stage w pattern payload flag s else Except.ok s) = Except.error t) :
    ∀ x, x ∈ t.created →
      x ∈ s.created ∨ ((c ∧ x.1 = pattern) ∧ ∃ r, x.2 = joinPath w.tempDir x.1 ++ r) := by
  intro x hx
  by_cases hc : c
  · simp only [hc, if_true] at h
    rcases stage_created _ _ _ _ _ _ h x hx with h1 | h1
    · exact Or.inl h1
    · exact Or.inr ⟨⟨hc, h1.1⟩, h1.2⟩
  · simp only [hc, if_false, Except.ok.injEq, reduceCtorEq, or_false] at h
    exact Or.inl (h ▸ hx)

/-- In every frame that `prepare` ends in, a temporary file with the keys
pattern exists only for non-empty keys, one with the data pattern only for
non-empty data, any other has the script pattern, and each is named after its
pattern. -/
theorem prepare_created (cmd : List String) (script keys data : String) (w : World) (s : Frame)
    (h : prepare cmd script keys data w = Except.ok s ∨
      prepare cmd script keys data w = Except.error s) :
    ∀ x, x ∈ s.created →
      ((keys ≠ "" ∧ x.1 = "tempKeys") ∨ (data ≠ "" ∧ x.1 = "tempData") ∨ x.1 = "tempScript") ∧
      ∃ r, x.2 = joinPath w.tempDir x.1 ++ r := by
  rw [prepare_eq] at h
  generalize e1 : (if keys ≠ "" then stage w "tempKeys" keys ["-k"]
      { cmd := cmd, fs := w.fs, rand := w.rand, deferred := [], created := [] }
    else Except.ok
      { cmd := cmd, fs := w.fs, rand := w.rand, deferred := [], created := [] }) = r1 at h
  have c0 : ∀ (t : Frame), (r1 = Except.ok t ∨ r1 = Except.error t) → ∀ x, x ∈ t.created →
      (keys ≠ "" ∧ x.1 = "tempKeys") ∧ ∃ r, x.2 = joinPath w.tempDir x.1 ++ r := by
    intro t ht x hx
    rw [← e1] at ht
    rcases guarded_stage_created _ _ _ _ _ _ _ ht x hx with h1 | h1
    · simp at h1
    · exact h1
  cases r1 with
  | error s1 =>
    simp only [Except.error.injEq, reduceCtorEq, false_or] at h
    intro x hx
    have hx1 := c0 s1 (Or.inr rfl) x (h ▸ hx)
    exact ⟨Or.inl hx1.1, hx1.2⟩
  | ok s1 =>
    have c1 := c0 s1 (Or.inl rfl)
    simp only at h
    generalize e2 : (if data ≠ "" then stage w "tempData" data ["-a"] s1
      else Except.ok s1) = r2 at h
    have c2 : ∀ (t : Frame), (r2 = Except.ok t ∨ r2 = Except.error t) → ∀ x, x ∈ t.created →
        ((keys ≠ "" ∧ x.1 = "tempKeys") ∨ (data ≠ "" ∧ x.1 = "tempData")) ∧
        ∃ r, x.2 = joinPath w.tempDir x.1 ++ r := by
      intro t ht x hx
      rw [← e2] at ht
      rcases guarded_stage_created _ _ _ _ _ _ _ ht x hx with h1 | h1
      · exact ⟨Or.inl (c1 x h1).1, (c1 x h1).2⟩
      · exact ⟨Or.inr h1.1, h1.2⟩
    cases r2 with
    | error s2 =>
      simp only [Except.error.injEq, reduceCtorEq, false_or] at h
      intro x hx
      have hx2 := c2 s2 (Or.inr rfl) x (h ▸ hx)
      refine ⟨?_, hx2.2⟩
      rcases hx2.1 with h1 | h1
      · exact Or.inl h1
      · exact Or.inr (Or.inl h1)
    | ok s2 =>
      simp only at h
      intro x hx
      rcases stage_created _ _ _ _ _ _ h x hx with h1 | h1
      · have hx2 := c2 s2 (Or.inl rfl) x h1
        refine ⟨?_, hx2.2⟩
        rcases hx2.1 with h2 | h2
        · exact Or.inl h2
        · exact Or.inr (Or.inl h2)
      · exact ⟨Or.inr (Or.inr h1.1), h1.2⟩

/-- What a block under a condition does to the frame when it does not fail. -/
theorem guarded_stage_ok (c : Prop) [Decidable c] (w : World) (pattern payload : String)
    (flag : List String) (s t : Frame)
    (h : (if c then stage w pattern payload flag s else Except.ok s) = Except.ok t) :
    ∃ name,
      t.cmd = s.cmd ++ (if c then flag ++ [name] else []) ∧
      t.created = s.created ++ (if c then [(pattern, name)] else []) ∧
      (c → t.fs name = some (stored w name payload)) ∧
      ∀ q, s.fs q ≠ none → t.fs q = s.fs q := by
  by_cases hc : c
  · simp only [hc, if_true] at h
    obtain ⟨name, hfresh, -, hcmd, hcr, -, hname, hother⟩ := stage_ok _ _ _ _ _ _ h
    refine ⟨name, ?_, ?_, fun _ => hname, fun q hq => hother q (fun e => hq (e ▸ hfresh))⟩
    · simp [hc, hcmd]
    · simp [hc, hcr]
  · simp only [hc, if_false, Except.ok.injEq] at h
    subst h
    exact ⟨"", by simp [hc], by simp [hc], fun h1 => absurd h1 hc, fun _ _ => rfl⟩

/-- The frame in which `prepare` succeeds, in the words of the specification. -/
theorem prepare_ok (cmd : List String) (script keys data : String) (w : World) (s : Frame)
    (h : prepare cmd script keys data w = Except.ok s) :
    ∃ keysPath dataPath scriptPath,
      s.cmd = cmd ++ (if keys ≠ "" then ["-k", keysPath] else []) ++
        (if data ≠ "" then ["-a", dataPath] else []) ++ [scriptPath] ∧
      s.created = specCreated keys data keysPath dataPath scriptPath ∧
      s.fs scriptPath = some (stored w scriptPath script) ∧
      (keys ≠ "" → s.fs keysPath = some (stored w keysPath keys)) ∧
      (data ≠ "" → s.fs dataPath = some (stored w dataPath data)) := by
  rw [prepare_eq] at h
  generalize e1 : (if keys ≠ "" then stage w "tempKeys" keys ["-k"]
      { cmd := cmd, fs := w.fs, rand := w.rand, deferred := [], created := [] }
    else Except.ok
      { cmd := cmd, fs := w.fs, rand := w.rand, deferred := [], created := [] }) = r1 at h
  cases r1 with
  | error s1 => exact absurd h (by simp)
  | ok s1 =>
    simp only at h
    generalize e2 : (if data ≠ "" then stage w "tempData" data ["-a"] s1
      else Except.ok s1) = r2 at h
    cases r2 with
    | error s2 => exact absurd h (by simp)
    | ok s2 =>
      simp only at h
      obtain ⟨kp, k1, k2, k3, -⟩ := guarded_stage_ok _ _ _ _ _ _ _ e1
      obtain ⟨dp, d1, d2, d3, d4⟩ := guarded_stage_ok _ _ _ _ _ _ _ e2
      obtain ⟨sp, hfresh, -, p1, p2, -, p3, p4⟩ := stage_ok _ _ _ _ _ _ h
      have keep : ∀ q, s2.fs q ≠ none → s.fs q = s2.fs q :=
        fun q hq => p4 q (fun e => hq (e ▸ hfresh))
      refine ⟨kp, dp, sp, ?_, ?_, p3, ?_, ?_⟩
      · rw [p1, d1, k1]
        simp
      · rw [p2, d2, k2]
        simp [specCreated]
      · intro hk
        have a1 := k3 hk
        have a2 : s2.fs kp = s1.fs kp := d4 kp (by simp [a1])
        rw [keep kp (by simp [a2, a1]), a2, a1]
      · intro hd
        have a1 := d3 hd
        rw [keep dp (by simp [a1]), a1]

/-- A payload whose `WriteString` and `Sync` succeed is stored in full, as
content and on stable storage. -/
theorem stored_of_success (w : World) (name payload : String)
    (hw : w.writeShort name payload = none) (hs : w.syncFails name = false) :
    stored w name payload = { content := payload, onDisk := payload } := by
  simp [stored, written, hw, hs]

/-- The run of `launch` when the pipes open and the child starts. -/
theorem launch_started (w : World) (s : Frame) (hcmd : s.cmd ≠ [])
    (h1 : w.stdoutPipeErr = none) (h2 : w.stderrPipeErr = none) (h3 : w.startErr = none) :
    launch w s =
      { exit := Exit.returned
          { Output := recv (captureOutput (w.child s.cmd s.fs).stdout).1,
            Logs := recv (captureOutput (w.child s.cmd s.fs).stderr).1 }
          (Wait (w.child s.cmd s.fs)).isNone,
        fsBody := s.fs,
        fs := runDeferred s.deferred s.fs,
        created := s.created,
        spawn := some { argv := s.cmd, fs := s.fs },
        hostLog := (captureOutput (w.child s.cmd s.fs).stdout).2 ++
          (captureOutput (w.child s.cmd s.fs).stderr).2 } := by
  unfold launch
  cases hc : s.cmd with
  | nil => exact absurd hc hcmd
  | cons name args => simp [h1, h2, h3, Command]

/-- The run of `launch` when a pipe cannot be opened or the child cannot start. -/
theorem launch_failed (w : World) (s : Frame) (hcmd : s.cmd ≠ [])
    (h : w.stdoutPipeErr ≠ none ∨ w.stderrPipeErr ≠ none ∨ w.startErr ≠ none) :
    ∃ line, launch w s = fatalf s line := by
  unfold launch
  cases hc : s.cmd with
  | nil => exact absurd hc hcmd
  | cons name args =>
    cases e1 : w.stdoutPipeErr with
    | some e => exact ⟨_, rfl⟩
    | none =>
      cases e2 : w.stderrPipeErr with
      | some e => exact ⟨_, rfl⟩
      | none =>
        cases e3 : w.startErr with
        | some e => exact ⟨_, rfl⟩
        | none => simp [e1, e2, e3] at h

/-- The command line an entry point starts from. -/
theorem invoke_eq (contract : Bool) (script conf keys data : String) (w : World) :
    invoke contract script conf keys data w =
      wrapper (if contract then ["zenroom", "-z"] else ["zenroom"]) script conf keys data w := by
  cases contract <;> rfl

/-- The three ways an invocation ends: a panic while the temporary files are
made, a fatal exit while the child is set up, or a return after the child ran. -/
theorem invoke_outcome (contract : Bool) (script conf keys data : String) (w : World) :
    (∃ s, prepare (if contract then ["zenroom", "-z"] else ["zenroom"]) script keys data w
        = Except.error s ∧
      invoke contract script conf keys data w = unwind s) ∨
    (∃ s line, prepare (if contract then ["zenroom", "-z"] else ["zenroom"]) script keys data w
        = Except.ok s ∧
      (w.stdoutPipeErr ≠ none ∨ w.stderrPipeErr ≠ none ∨ w.startErr ≠ none) ∧
      invoke contract script conf keys data w = fatalf s line) ∨
    (∃ s, prepare (if contract then ["zenroom", "-z"] else ["zenroom"]) script keys data w
        = Except.ok s ∧
      w.stdoutPipeErr = none ∧ w.stderrPipeErr = none ∧ w.startErr = none ∧
      invoke contract script conf keys data w =
        { exit := Exit.returned
            { Output := recv (captureOutput (w.child s.cmd s.fs).stdout).1,
              Logs := recv (captureOutput (w.child s.cmd s.fs).stderr).1 }
            (Wait (w.child s.cmd s.fs)).isNone,
          fsBody := s.fs,
          fs := runDeferred s.deferred s.fs,
          created := s.created,
          spawn := some { argv := s.cmd, fs := s.fs },
          hostLog := (captureOutput (w.child s.cmd s.fs).stdout).2 ++
            (captureOutput (w.child s.cmd s.fs).stderr).2 }) := by
  rw [invoke_eq]
  unfold wrapper
  cases hp : prepare (if contract then ["zenroom", "-z"] else ["zenroom"]) script keys data w with
  | error s => exact Or.inl ⟨s, rfl, rfl⟩
  | ok s =>
    have hcmd : s.cmd ≠ [] := by
      obtain ⟨kp, dp, scp, hc, -⟩ := prepare_ok _ _ _ _ _ _ hp
      rw [hc]
      simp
    by_cases herr : w.stdoutPipeErr = none ∧ w.stderrPipeErr = none ∧ w.startErr = none
    · exact Or.inr (Or.inr ⟨s, rfl, herr.1, herr.2.1, herr.2.2,
        launch_started w s hcmd herr.1 herr.2.1 herr.2.2⟩)
    · have herr2 : w.stdoutPipeErr ≠ none ∨ w.stderrPipeErr ≠ none ∨ w.startErr ≠ none := by
        by_contra hcon
        simp only [not_or, not_not] at hcon
        exact herr hcon
      obtain ⟨line, hl⟩ := launch_failed w s hcmd herr2
      exact Or.inr (Or.inl ⟨s, line, rfl, herr2, hl⟩)

/-- The command line of the entry point followed by the flags and the script
path is the argument vector of the specification. -/
theorem specArgv_eq (contract : Bool) (keys data keysPath dataPath scriptPath : String) :
    (if contract then ["zenroom", "-z"] else ["zenroom"]) ++
        (if keys ≠ "" then ["-k", keysPath] else []) ++
        (if data ≠ "" then ["-a", dataPath] else []) ++ [scriptPath] =
      specArgv contract keys data keysPath dataPath scriptPath := by
  cases contract <;> simp [specArgv]

theorem recv_capture_clean (p : Pipe) (h : p.fault = none) :
    recv (captureOutput p).1 = p.data := by
  simp [captureOutput, ioCopy, h, recv]

theorem recv_capture_fault (p : Pipe) (h : p.fault ≠ none) :
    recv (captureOutput p).1 = "" := by
  cases hf : p.fault with
  | none => exact absurd hf h
  | some ne => simp [captureOutput, ioCopy, hf, recv]

theorem wait_isNone (c : Child) : (Wait c).isNone = true ↔ c.status = 0 := by
  unfold Wait
  split <;> simp [*]

/-- The script path of the specification is among the temporary files. -/
theorem script_mem_specCreated (keys data keysPath dataPath scriptPath : String) :
    scriptPath ∈ (specCreated keys data keysPath dataPath scriptPath).map Prod.snd := by
  simp [specCreated]

/-! ## The claims -/

/-- C1: whenever a child process is started, through either entry point, its
argument vector is exactly `zenroom`, then `-z` only in contract mode, then
`-k` and the keys file only for non-empty keys, then `-a` and the data file
only for non-empty data, then the script file, and the script path is the last
argument.  These paths are the temporary files of the invocation: the files
that are in the filesystem the child is started in and were not there before
the call are exactly these, each named, in the temporary directory, by its
pattern and a suffix. -/
theorem argv_handed_to_child (contract : Bool) (script conf keys data : String) (w : World)
    (h : (invoke contract script conf keys data w).spawn.isSome = true) :
    ∃ sp keysPath dataPath scriptPath,
      (invoke contract script conf keys data w).spawn = some sp ∧
      (invoke contract script conf keys data w).created =
        specCreated keys data keysPath dataPath scriptPath ∧
      sp.argv = specArgv contract keys data keysPath dataPath scriptPath ∧
      sp.argv.getLast? = some scriptPath ∧
      (∀ p, p ∈ (invoke contract script conf keys data w).created.map Prod.snd ↔
        (w.fs p = none ∧ sp.fs p ≠ none)) ∧
      (∀ x, x ∈ (invoke contract script conf keys data w).created →
        ∃ suffix, x.2 = joinPath w.tempDir x.1 ++ suffix) := by
  rcases invoke_outcome contract script conf keys data w with
    ⟨s, -, hr⟩ | ⟨s, line, -, -, hr⟩ | ⟨s, hp, -, -, -, hr⟩
  · rw [hr] at h
    simp [unwind] at h
  · rw [hr] at h
    simp [fatalf] at h
  · obtain ⟨kp, dp, scp, hcmd, hcr, -⟩ := prepare_ok _ _ _ _ _ _ hp
    have ht := (prepare_tidy _ _ _ _ _).1 s hp
    rw [specArgv_eq] at hcmd
    refine ⟨{ argv := s.cmd, fs := s.fs }, kp, dp, scp, ?_, ?_, hcmd, ?_, ?_, ?_⟩
    · rw [hr]
    · rw [hr]
      exact hcr
    · rw [hcmd]
      exact List.getLast?_concat _
    · intro p
      rw [hr]
      exact tidy_new_files w.fs s ht p
    · intro x hx
      rw [hr] at hx
      exact (prepare_created _ _ _ _ _ _ (Or.inl hp) x hx).2

/-- Witness of C1: contract mode with keys and without data in the calm world. -/
theorem argv_handed_to_child_witness :
    (invoke true "print(1)" "conf" "K" "" calmWorld).spawn.isSome = true ∧
    ∃ sp keysPath dataPath scriptPath,
      (invoke true "print(1)" "conf" "K" "" calmWorld).spawn = some sp ∧
      (invoke true "print(1)" "conf" "K" "" calmWorld).created =
        specCreated "K" "" keysPath dataPath scriptPath ∧
      sp.argv = specArgv true "K" "" keysPath dataPath scriptPath ∧
      sp.argv.getLast? = some scriptPath ∧
      (∀ p, p ∈ (invoke true "print(1)" "conf" "K" "" calmWorld).created.map Prod.snd ↔
        (calmWorld.fs p = none ∧ sp.fs p ≠ none)) ∧
      (∀ x, x ∈ (invoke true "print(1)" "conf" "K" "" calmWorld).created →
        ∃ suffix, x.2 = joinPath calmWorld.tempDir x.1 ++ suffix) :=
  ⟨by decide, argv_handed_to_child true "print(1)" "conf" "K" "" calmWorld (by decide)⟩

/-- C2: when an invocation returns, a child process was started, the flag
returned is true exactly when that child exited with status zero, and the
result carries the text captured from its standard output (`Output`) and its
standard error (`Logs`), whatever the flag; a stream that is read without
error is captured in full. -/
theorem success_flag_iff_exit_zero (contract : Bool) (script conf keys data : String)
    (w : World) (res : ZenResult) (ok : Bool)
    (h : (invoke contract script conf keys data w).exit = Exit.returned res ok) :
    ∃ sp, (invoke contract script conf keys data w).spawn = some sp ∧
      (ok = true ↔ (w.child sp.argv sp.fs).status = 0) ∧
      res.Output = recv (captureOutput (w.child sp.argv sp.fs).stdout).1 ∧
      res.Logs = recv (captureOutput (w.child sp.argv sp.fs).stderr).1 ∧
      ((w.child sp.argv sp.fs).stdout.fault = none →
        res.Output = (w.child sp.argv sp.fs).stdout.data) ∧
      ((w.child sp.argv sp.fs).stderr.fault = none →
        res.Logs = (w.child sp.argv sp.fs).stderr.data) := by
  rcases invoke_outcome contract script conf keys data w with
    ⟨s, -, hr⟩ | ⟨s, line, -, -, hr⟩ | ⟨s, -, -, -, -, hr⟩
  · rw [hr] at h
    simp [unwind] at h
  · rw [hr] at h
    simp [fatalf] at h
  · rw [hr] at h
    simp only [Exit.returned.injEq] at h
    obtain ⟨hres, hok⟩ := h
    refine ⟨{ argv := s.cmd, fs := s.fs }, by rw [hr], ?_, ?_, ?_, ?_, ?_⟩
    · rw [← hok]
      exact wait_isNone _
    · rw [← hres]
    · rw [← hres]
    · intro hf
      rw [← hres]
      exact recv_capture_clean _ hf
    · intro hf
      rw [← hres]
      exact recv_capture_clean _ hf

/-- Witness of C2: the executable rejects the script and exits with status 1. -/
theorem success_flag_iff_exit_zero_witness :
    (invoke false "print(x.y)" "" "" "" rejectWorld).exit =
      Exit.returned { Output := "", Logs := "[!] undefined symbol" } false ∧
    ∃ sp, (invoke false "print(x.y)" "" "" "" rejectWorld).spawn = some sp ∧
      (false = true ↔ (rejectWorld.child sp.argv sp.fs).status = 0) ∧
      "" = recv (captureOutput (rejectWorld.child sp.argv sp.fs).stdout).1 ∧
      "[!] undefined symbol" = recv (captureOutput (rejectWorld.child sp.argv sp.fs).stderr).1 ∧
      ((rejectWorld.child sp.argv sp.fs).stdout.fault = none →
        "" = (rejectWorld.child sp.argv sp.fs).stdout.data) ∧
      ((rejectWorld.child sp.argv sp.fs).stderr.fault = none →
        "[!] undefined symbol" = (rejectWorld.child sp.argv sp.fs).stderr.data) :=
  ⟨by decide, success_flag_iff_exit_zero false "print(x.y)" "" "" "" rejectWorld
    { Output := "", Logs := "[!] undefined symbol" } false (by decide)⟩

/-- C3 as stated fails: on a disk that fills up `WriteString` stops after three
characters, the source goes on, and the child is started on a script file that
holds `pri` instead of `print(1)` (the stub child echoes that file on standard
error). -/
theorem short_write_truncates_script :
    (ZenroomExec "print(1)" "" "" "" shortWriteWorld).spawn.map
        (fun sp => (sp.argv, sp.fs "/tmp/tempScript1")) =
      some (["zenroom", "/tmp/tempScript1"], some { content := "pri", onDisk := "pri" }) ∧
    (ZenroomExec "print(1)" "" "" "" shortWriteWorld).exit =
      Exit.returned { Output := "zenroom /tmp/tempScript1", Logs := "pri" } true := by
  decide

/-- C3 amended: whenever a child process is started, the filesystem it is
started in holds, under the last argument, under the argument after `-k`
(present for non-empty keys) and under the argument after `-a` (present for
non-empty data), a file with what `WriteString` wrote of the script, the keys
and the data, flushed unless `Sync` failed; each payload whose `WriteString`
and `Sync` succeeded is there exactly and in full, as content and as flushed
content. -/
theorem payloads_in_place_at_launch (contract : Bool) (script conf keys data : String)
    (w : World) (h : (invoke contract script conf keys data w).spawn.isSome = true) :
    ∃ sp keysPath dataPath scriptPath,
      (invoke contract script conf keys data w).spawn = some sp ∧
      sp.argv = specArgv contract keys data keysPath dataPath scriptPath ∧
      sp.fs scriptPath = some (stored w scriptPath script) ∧
      (keys ≠ "" → sp.fs keysPath = some (stored w keysPath keys)) ∧
      (data ≠ "" → sp.fs dataPath = some (stored w dataPath data)) ∧
      (w.writeShort scriptPath script = none → w.syncFails scriptPath = false →
        sp.fs scriptPath = some { content := script, onDisk := script }) ∧
      (keys ≠ "" → w.writeShort keysPath keys = none → w.syncFails keysPath = false →
        sp.fs keysPath = some { content := keys, onDisk := keys }) ∧
      (data ≠ "" → w.writeShort dataPath data = none → w.syncFails dataPath = false →
        sp.fs dataPath = some { content := data, onDisk := data }) := by
  rcases invoke_outcome contract script conf keys data w with
    ⟨s, -, hr⟩ | ⟨s, line, -, -, hr⟩ | ⟨s, hp, -, -, -, hr⟩
  · rw [hr] at h
    simp [unwind] at h
  · rw [hr] at h
    simp [fatalf] at h
  · obtain ⟨kp, dp, scp, hcmd, -, h1, h2, h3⟩ := prepare_ok _ _ _ _ _ _ hp
    rw [specArgv_eq] at hcmd
    refine ⟨{ argv := s.cmd, fs := s.fs }, kp, dp, scp, by rw [hr], hcmd, h1, h2, h3, ?_, ?_, ?_⟩
    · intro hw hs
      rw [← stored_of_success w scp script hw hs]
      exact h1
    · intro hk hw hs
      rw [← stored_of_success w kp keys hw hs]
      exact h2 hk
    · intro hd hw hs
      rw [← stored_of_success w dp data hw hs]
      exact h3 hd

/-- Witness of C3 amended: keys, data and script in the calm world, where every
`WriteString` and `Sync` succeeds. -/
theorem payloads_in_place_at_launch_witness :
    (invoke false "print(1)" "" "K" "D" calmWorld).spawn.isSome = true ∧
    ∃ sp keysPath dataPath scriptPath,
      (invoke false "print(1)" "" "K" "D" calmWorld).spawn = some sp ∧
      sp.argv = specArgv false "K" "D" keysPath dataPath scriptPath ∧
      sp.fs scriptPath = some { content := "print(1)", onDisk := "print(1)" } ∧
      sp.fs keysPath = some { content := "K", onDisk := "K" } ∧
      sp.fs dataPath = some { content := "D", onDisk := "D" } := by
  refine ⟨by decide, ?_⟩
  obtain ⟨sp, kp, dp, scp, h1, h2, -, -, -, h3, h4, h5⟩ :=
    payloads_in_place_at_launch false "print(1)" "" "K" "D" calmWorld (by decide)
  exact ⟨sp, kp, dp, scp, h1, h2, h3 rfl rfl, h4 (by decide) rfl rfl, h5 (by decide) rfl rfl⟩

/-- C4 as stated fails: where no temporary file can be created the invocation
panics at the first `Name()` call; no file at all is created, not the script
file and the keys and data files that the non-empty keys and data call for. -/
theorem no_temp_file_without_createTemp :
    (ZenroomExec "print(1)" "" "K" "D" noTempWorld).exit = Exit.panicked ∧
    (ZenroomExec "print(1)" "" "K" "D" noTempWorld).created = [] ∧
    ¬ ∃ keysPath dataPath scriptPath,
      (ZenroomExec "print(1)" "" "K" "D" noTempWorld).created =
        specCreated "K" "D" keysPath dataPath scriptPath := by
  refine ⟨by decide, by decide, ?_⟩
  rintro ⟨kp, dp, scp, h⟩
  have hc : (ZenroomExec "print(1)" "" "K" "D" noTempWorld).created = [] := by decide
  rw [hc] at h
  simp [specCreated] at h

/-- C4 amended: in every invocation an empty keys string leaves no keys file
among the temporary files created and an empty data string no data file; the
temporary files created are exactly the files that are in the filesystem when
the body of `wrapper` is left and were not there before the call, under
pairwise different names, each the pattern and a suffix in the temporary
directory; and in every invocation in which no `os.CreateTemp` fails (the
invocation does not panic) they are exactly a keys file if keys is non-empty,
a data file if data is non-empty, and the script file. -/
theorem temp_files_created (contract : Bool) (script conf keys data : String) (w : World) :
    (keys = "" → ∀ name, ("tempKeys", name) ∉ (invoke contract script conf keys data w).created) ∧
    (data = "" → ∀ name, ("tempData", name) ∉ (invoke contract script conf keys data w).created) ∧
    (∀ p, p ∈ (invoke contract script conf keys data w).created.map Prod.snd ↔
      (w.fs p = none ∧ (invoke contract script conf keys data w).fsBody p ≠ none)) ∧
    ((invoke contract script conf keys data w).created.map Prod.snd).Nodup ∧
    (∀ x, x ∈ (invoke contract script conf keys data w).created →
      ∃ suffix, x.2 = joinPath w.tempDir x.1 ++ suffix) ∧
    ((invoke contract script conf keys data w).exit ≠ Exit.panicked →
      ∃ keysPath dataPath scriptPath,
        (invoke contract script conf keys data w).created =
          specCreated keys data keysPath dataPath scriptPath) := by
  have hcr : ∃ s, (prepare (if contract then ["zenroom", "-z"] else ["zenroom"]) script keys data w
        = Except.ok s ∨
      prepare (if contract then ["zenroom", "-z"] else ["zenroom"]) script keys data w
        = Except.error s) ∧
      (invoke contract script conf keys data w).created = s.created ∧
      (invoke contract script conf keys data w).fsBody = s.fs ∧
      ((invoke contract script conf keys data w).exit ≠ Exit.panicked →
        prepare (if contract then ["zenroom", "-z"] else ["zenroom"]) script keys data w
          = Except.ok s) := by
    rcases invoke_outcome contract script conf keys data w with
      ⟨s, hp, hr⟩ | ⟨s, line, hp, -, hr⟩ | ⟨s, hp, -, -, -, hr⟩
    · exact ⟨s, Or.inr hp, by rw [hr]; rfl, by rw [hr]; rfl,
        fun hne => absurd (by rw [hr]; rfl) hne⟩
    · exact ⟨s, Or.inl hp, by rw [hr]; rfl, by rw [hr]; rfl, fun _ => hp⟩
    · exact ⟨s, Or.inl hp, by rw [hr], by rw [hr], fun _ => hp⟩
  obtain ⟨s, hp, hc, hb, hok⟩ := hcr
  have hpat := prepare_created _ _ _ _ _ _ hp
  have ht : Tidy w.fs s := by
    rcases hp with hp | hp
    · exact (prepare_tidy _ _ _ _ _).1 s hp
    · exact (prepare_tidy _ _ _ _ _).2 s hp
  refine ⟨?_, ?_, ?_, ?_, ?_, ?_⟩
  · intro hk name hm
    rw [hc] at hm
    rcases (hpat _ hm).1 with h1 | h1 | h1
    · exact h1.1 hk
    · exact absurd (show "tempKeys" = "tempData" from h1.2) (by decide)
    · exact absurd (show "tempKeys" = "tempScript" from h1) (by decide)
  · intro hd name hm
    rw [hc] at hm
    rcases (hpat _ hm).1 with h1 | h1 | h1
    · exact absurd (show "tempData" = "tempKeys" from h1.2) (by decide)
    · exact h1.1 hd
    · exact absurd (show "tempData" = "tempScript" from h1) (by decide)
  · intro p
    rw [hc, hb]
    exact tidy_new_files w.fs s ht p
  · rw [hc]
    exact ht.2.2.2
  · intro x hx
    rw [hc] at hx
    exact (hpat x hx).2
  · intro hne
    obtain ⟨kp, dp, scp, -, hcreated, -⟩ := prepare_ok _ _ _ _ _ _ (hok hne)
    exact ⟨kp, dp, scp, by rw [hc, hcreated]⟩

/-- Witness of C4 amended: data without keys in the calm world. -/
theorem temp_files_created_witness :
    (∀ name, ("tempKeys", name) ∉ (invoke false "print(1)" "" "" "D" calmWorld).created) ∧
    (invoke false "print(1)" "" "" "D" calmWorld).created =
      [("tempData", "/tmp/tempData1"), ("tempScript", "/tmp/tempScript2")] ∧
    ∃ keysPath dataPath scriptPath,
      (invoke false "print(1)" "" "" "D" calmWorld).created =
        specCreated "" "D" keysPath dataPath scriptPath :=
  ⟨(temp_files_created false "print(1)" "" "" "D" calmWorld).1 rfl, by decide,
    (temp_files_created false "print(1)" "" "" "D" calmWorld).2.2.2.2.2 (by decide)⟩

/-- C5: when an invocation returns, with either value of the flag, the
filesystem is at every path as it was before the call.  The temporary files of
the invocation, the script file among them, are exactly the files that were in
the filesystem the child was started in and not there before the call; every
one of them is absent after the return, and every file that existed before the
call is still there, unchanged. -/
theorem temp_files_removed_on_return (contract : Bool) (script conf keys data : String)
    (w : World) (res : ZenResult) (ok : Bool)
    (h : (invoke contract script conf keys data w).exit = Exit.returned res ok) :
    ∃ sp scriptPath, (invoke contract script conf keys data w).spawn = some sp ∧
      sp.argv.getLast? = some scriptPath ∧
      scriptPath ∈ (invoke contract script conf keys data w).created.map Prod.snd ∧
      (∀ p, p ∈ (invoke contract script conf keys data w).created.map Prod.snd ↔
        (w.fs p = none ∧ sp.fs p ≠ none)) ∧
      (∀ x, x ∈ (invoke contract script conf keys data w).created →
        sp.fs x.2 ≠ none ∧ (invoke contract script conf keys data w).fs x.2 = none) ∧
      (∀ p, w.fs p ≠ none → (invoke contract script conf keys data w).fs p = w.fs p) ∧
      (∀ p, (invoke contract script conf keys data w).fs p = w.fs p) := by
  rcases invoke_outcome contract script conf keys data w with
    ⟨s, -, hr⟩ | ⟨s, line, -, -, hr⟩ | ⟨s, hp, -, -, -, hr⟩
  · rw [hr] at h
    simp [unwind] at h
  · rw [hr] at h
    simp [fatalf] at h
  · have ht := (prepare_tidy _ _ _ _ _).1 s hp
    obtain ⟨kp, dp, scp, hcmd, hcr, -⟩ := prepare_ok _ _ _ _ _ _ hp
    have hfs : ∀ p, (invoke contract script conf keys data w).fs p = w.fs p := by
      intro p
      rw [hr]
      exact tidy_runDeferred w.fs s ht p
    refine ⟨{ argv := s.cmd, fs := s.fs }, scp, by rw [hr], ?_, ?_, ?_, ?_,
      fun p _ => hfs p, hfs⟩
    · show s.cmd.getLast? = some scp
      rw [hcmd]
      exact List.getLast?_concat _
    · rw [hr]
      show scp ∈ s.created.map Prod.snd
      rw [hcr]
      exact script_mem_specCreated _ _ _ _ _
    · intro p
      rw [hr]
      exact tidy_new_files w.fs s ht p
    · intro x hx
      have hx2 : x ∈ s.created := by
        rw [hr] at hx
        exact hx
      have hm := ht.2.1 x.2 (List.mem_map_of_mem Prod.snd hx2)
      exact ⟨hm.2, by rw [hfs]; exact hm.1⟩

/-- Witness of C5: a return with the flag false, two files being there before
the call, one of them in the way of the first temporary name. -/
theorem temp_files_removed_on_return_witness :
    (invoke true "print(x.y)" "" "K" "D" busyWorld).exit =
      Exit.returned { Output := "", Logs := "[!] undefined symbol" } false ∧
    (invoke true "print(x.y)" "" "K" "D" busyWorld).created =
      [("tempKeys", "/tmp/tempKeys2"), ("tempData", "/tmp/tempData3"),
        ("tempScript", "/tmp/tempScript4")] ∧
    ∃ sp scriptPath, (invoke true "print(x.y)" "" "K" "D" busyWorld).spawn = some sp ∧
      sp.argv.getLast? = some scriptPath ∧
      scriptPath ∈ (invoke true "print(x.y)" "" "K" "D" busyWorld).created.map Prod.snd ∧
      (∀ p, p ∈ (invoke true "print(x.y)" "" "K" "D" busyWorld).created.map Prod.snd ↔
        (busyWorld.fs p = none ∧ sp.fs p ≠ none)) ∧
      (∀ x, x ∈ (invoke true "print(x.y)" "" "K" "D" busyWorld).created →
        sp.fs x.2 ≠ none ∧ (invoke true "print(x.y)" "" "K" "D" busyWorld).fs x.2 = none) ∧
      (∀ p, busyWorld.fs p ≠ none →
        (invoke true "print(x.y)" "" "K" "D" busyWorld).fs p = busyWorld.fs p) ∧
      (∀ p, (invoke true "print(x.y)" "" "K" "D" busyWorld).fs p = busyWorld.fs p) :=
  ⟨by decide, by decide, temp_files_removed_on_return true "print(x.y)" "" "K" "D" busyWorld
    { Output := "", Logs := "[!] undefined symbol" } false (by decide)⟩

/-- C6, the code at a failing input: when the child cannot be started, or the
standard-output pipe cannot be created, the invocation ends in `log.Fatalf`
and every temporary file it created is still in the filesystem. -/
theorem fatal_exit_leaves_temp_files :
    (ZenroomExec "print(1)" "" "K" "D" startFailsWorld).exit = Exit.fatal ∧
    (ZenroomExec "print(1)" "" "K" "D" startFailsWorld).created =
      [("tempKeys", "/tmp/tempKeys1"), ("tempData", "/tmp/tempData2"),
        ("tempScript", "/tmp/tempScript3")] ∧
    (ZenroomExec "print(1)" "" "K" "D" startFailsWorld).fs "/tmp/tempKeys1" =
      some { content := "K", onDisk := "K" } ∧
    (ZenroomExec "print(1)" "" "K" "D" startFailsWorld).fs "/tmp/tempData2" =
      some { content := "D", onDisk := "D" } ∧
    (ZenroomExec "print(1)" "" "K" "D" startFailsWorld).fs "/tmp/tempScript3" =
      some { content := "print(1)", onDisk := "print(1)" } ∧
    (ZencodeExec "print(1)" "" "" "" pipeFailsWorld).exit = Exit.fatal ∧
    (ZencodeExec "print(1)" "" "" "" pipeFailsWorld).created =
      [("tempScript", "/tmp/tempScript1")] ∧
    (ZencodeExec "print(1)" "" "" "" pipeFailsWorld).fs "/tmp/tempScript1" =
      some { content := "print(1)", onDisk := "print(1)" } := by
  decide

/-- C7 as stated fails: in a world where the executable cannot be started the
invocation ends in `log.Fatalf`; it does not return the flag false. -/
theorem start_failure_does_not_return :
    startFailsWorld.startErr ≠ none ∧
    (ZenroomExec "print(1)" "" "" "" startFailsWorld).exit = Exit.fatal ∧
    ¬ ∃ res, (ZenroomExec "print(1)" "" "" "" startFailsWorld).exit = Exit.returned res false := by
  refine ⟨by decide, by decide, ?_⟩
  rintro ⟨res, h⟩
  have hf : (ZenroomExec "print(1)" "" "" "" startFailsWorld).exit = Exit.fatal := by decide
  rw [hf] at h
  exact absurd h (by simp)

/-- C7 amended: when starting the child fails (the temporary files having been
created), the invocation does not return: it ends in `log.Fatalf` with one
line logged, no child process runs, and no result is handed to the caller. -/
theorem start_failure_is_fatal (contract : Bool) (script conf keys data : String) (w : World)
    (h1 : w.startErr ≠ none)
    (h2 : (invoke contract script conf keys data w).exit ≠ Exit.panicked) :
    (invoke contract script conf keys data w).exit = Exit.fatal ∧
    (invoke contract script conf keys data w).spawn = none ∧
    (∃ line, (invoke contract script conf keys data w).hostLog = [line]) ∧
    ∀ res ok, (invoke contract script conf keys data w).exit ≠ Exit.returned res ok := by
  rcases invoke_outcome contract script conf keys data w with
    ⟨s, -, hr⟩ | ⟨s, line, -, -, hr⟩ | ⟨s, -, -, -, h3, -⟩
  · exact absurd (by rw [hr]; rfl) h2
  · rw [hr]
    exact ⟨rfl, rfl, ⟨line, rfl⟩, fun res ok hne => by simp [fatalf] at hne⟩
  · exact absurd h3 h1

/-- Witness of C7 amended: contract mode in the world where the start fails. -/
theorem start_failure_is_fatal_witness :
    (invoke true "print(1)" "" "K" "" startFailsWorld).exit = Exit.fatal ∧
    (invoke true "print(1)" "" "K" "" startFailsWorld).spawn = none ∧
    (∃ line, (invoke true "print(1)" "" "K" "" startFailsWorld).hostLog = [line]) ∧
    ∀ res ok, (invoke true "print(1)" "" "K" "" startFailsWorld).exit ≠ Exit.returned res ok :=
  start_failure_is_fatal true "print(1)" "" "K" "" startFailsWorld (by decide) (by decide)

/-- C8 as stated fails: the read of standard output breaks after the one
character `a` of `abc`, and the `Output` returned is empty, not `a`. -/
theorem read_fault_drops_partial_text :
    ioCopy (readFaultWorld.child [] readFaultWorld.fs).stdout =
      ("a", some "read |0: input/output error") ∧
    (ZenroomExec "print(1)" "" "" "" readFaultWorld).exit =
      Exit.returned { Output := "", Logs := "warn" } true := by
  decide

/-- C8 amended: when an invocation returns, the text returned for a stream
whose read fails is the empty string, and the text returned for a stream whose
read does not fail is its complete content, whatever happens on the other
stream. -/
theorem read_fault_yields_empty_text (contract : Bool) (script conf keys data : String)
    (w : World) (res : ZenResult) (ok : Bool)
    (h : (invoke contract script conf keys data w).exit = Exit.returned res ok) :
    ∃ sp, (invoke contract script conf keys data w).spawn = some sp ∧
      ((w.child sp.argv sp.fs).stdout.fault ≠ none → res.Output = "") ∧
      ((w.child sp.argv sp.fs).stderr.fault ≠ none → res.Logs = "") ∧
      ((w.child sp.argv sp.fs).stdout.fault = none →
        res.Output = (w.child sp.argv sp.fs).stdout.data) ∧
      ((w.child sp.argv sp.fs).stderr.fault = none →
        res.Logs = (w.child sp.argv sp.fs).stderr.data) := by
  rcases invoke_outcome contract script conf keys data w with
    ⟨s, -, hr⟩ | ⟨s, line, -, -, hr⟩ | ⟨s, -, -, -, -, hr⟩
  · rw [hr] at h
    simp [unwind] at h
  · rw [hr] at h
    simp [fatalf] at h
  · rw [hr] at h
    simp only [Exit.returned.injEq] at h
    obtain ⟨hres, -⟩ := h
    refine ⟨{ argv := s.cmd, fs := s.fs }, by rw [hr], ?_, ?_, ?_, ?_⟩ <;> intro hf <;> rw [← hres]
    · exact recv_capture_fault _ hf
    · exact recv_capture_fault _ hf
    · exact recv_capture_clean _ hf
    · exact recv_capture_clean _ hf

/-- Witness of C8 amended: the world where the read of standard output fails. -/
theorem read_fault_yields_empty_text_witness :
    (invoke false "print(1)" "" "" "" readFaultWorld).exit =
      Exit.returned { Output := "", Logs := "warn" } true ∧
    ∃ sp, (invoke false "print(1)" "" "" "" readFaultWorld).spawn = some sp ∧
      ((readFaultWorld.child sp.argv sp.fs).stdout.fault ≠ none → "" = "") ∧
      ((readFaultWorld.child sp.argv sp.fs).stderr.fault ≠ none → "warn" = "") ∧
      ((readFaultWorld.child sp.argv sp.fs).stdout.fault = none →
        "" = (readFaultWorld.child sp.argv sp.fs).stdout.data) ∧
      ((readFaultWorld.child sp.argv sp.fs).stderr.fault = none →
        "warn" = (readFaultWorld.child sp.argv sp.fs).stderr.data) :=
  ⟨by decide, read_fault_yields_empty_text false "print(1)" "" "" "" readFaultWorld
    { Output := "", Logs := "warn" } true (by decide)⟩

/-- C10: the configuration string has no effect.  With any two configurations
an entry point does the same in every respect (the same temporary files, the
same child process with the same argument vector in the same filesystem, the
same result, the same filesystem afterwards); every temporary file is a keys,
data or script file, and the argument vector of a child that is started has no
element for the configuration. -/
theorem conf_has_no_effect (contract : Bool) (script conf1 conf2 keys data : String) (w : World) :
    invoke contract script conf1 keys data w = invoke contract script conf2 keys data w ∧
    ZenroomExec script conf1 keys data w = ZenroomExec script conf2 keys data w ∧
    ZencodeExec script conf1 keys data w = ZencodeExec script conf2 keys data w ∧
    (∀ x, x ∈ (invoke contract script conf1 keys data w).created →
      (keys ≠ "" ∧ x.1 = "tempKeys") ∨ (data ≠ "" ∧ x.1 = "tempData") ∨ x.1 = "tempScript") ∧
    (∀ sp, (invoke contract script conf1 keys data w).spawn = some sp →
      ∃ keysPath dataPath scriptPath,
        sp.argv = specArgv contract keys data keysPath dataPath scriptPath) := by
  refine ⟨by cases contract <;> rfl, rfl, rfl, ?_, ?_⟩
  · intro x hx
    rcases invoke_outcome contract script conf1 keys data w with
      ⟨s, hp, hr⟩ | ⟨s, line, hp, -, hr⟩ | ⟨s, hp, -, -, -, hr⟩
    · rw [hr] at hx
      exact (prepare_created _ _ _ _ _ _ (Or.inr hp) x hx).1
    · rw [hr] at hx
      exact (prepare_created _ _ _ _ _ _ (Or.inl hp) x hx).1
    · rw [hr] at hx
      exact (prepare_created _ _ _ _ _ _ (Or.inl hp) x hx).1
  · intro sp hsp
    rcases invoke_outcome contract script conf1 keys data w with
      ⟨s, -, hr⟩ | ⟨s, line, -, -, hr⟩ | ⟨s, hp, -, -, -, hr⟩
    · rw [hr] at hsp
      simp [unwind] at hsp
    · rw [hr] at hsp
      simp [fatalf] at hsp
    · obtain ⟨kp, dp, scp, hcmd, -⟩ := prepare_ok _ _ _ _ _ _ hp
      rw [specArgv_eq] at hcmd
      rw [hr] at hsp
      simp only [Option.some.injEq] at hsp
      exact ⟨kp, dp, scp, by rw [← hsp]; exact hcmd⟩

/-- Witness of C10: two configurations in the calm world. -/
theorem conf_has_no_effect_witness :
    invoke true "print(1)" "debug=3" "K" "D" calmWorld =
      invoke true "print(1)" "" "K" "D" calmWorld ∧
    (invoke true "print(1)" "debug=3" "K" "D" calmWorld).created =
      [("tempKeys", "/tmp/tempKeys1"), ("tempData", "/tmp/tempData2"),
        ("tempScript", "/tmp/tempScript3")] :=
  ⟨(conf_has_no_effect true "print(1)" "debug=3" "" "K" "D" calmWorld).1, by decide⟩

end Zenroom
